import Mathlib

/-!
Verification development for the standalone-soci-indexer repository.

The development shallowly embeds the registry interaction and orchestration
core of the repository: the image reference parser front end, the registry
client (authentication, manifest retrieval, multi-architecture digest-set
resolution and artifact push with capability-error translation), and the
per-digest orchestration loop of the handler. Network and filesystem effects
are represented by explicit oracle functions supplied as parameters, so every
definition is executable and every control-flow decision of the source is
reproduced verbatim.
-/

/-- Boolean success test for an Except value, mirroring the Go idiom of
checking an error result against nil. -/
def isOkB {ε α : Type} : Except ε α → Bool
  | .ok _ => true
  | .error _ => false

/-- Split a character list around the first occurrence of a separator,
returning the parts before and after it, or none when the separator does not
occur. This models splitting a Go string on the first occurrence of a rune. -/
def splitAtFirst (sep : Char) : List Char → Option (List Char × List Char)
  | [] => none
  | c :: rest =>
    if c = sep then some ([], rest)
    else
      match splitAtFirst sep rest with
      | none => none
      | some (a, b) => some (c :: a, b)

def dockerIoChars : List Char := "docker.io".data

def latestChars : List Char := "latest".data

/-- Modelled from the spec: registry recognition step of the parser. The
reference is split on the first slash; the left segment is a registry host
only when it contains a dot or a colon, and otherwise the registry defaults
to docker.io with the whole reference kept as the remainder. -/
def refRegistrySplit (desc : List Char) : List Char × List Char :=
  match splitAtFirst '/' desc with
  | none => (dockerIoChars, desc)
  | some (left, right) =>
    if '.' ∈ left ∨ ':' ∈ left then (left, right) else (dockerIoChars, desc)

/-- Modelled from the spec: suffix step of the parser. Inside the remainder a
digest suffix introduced by the at sign takes precedence over a tag suffix
introduced by a colon, and an absent suffix defaults the tag to latest. -/
def refTagSplit (rest : List Char) : List Char × List Char :=
  match splitAtFirst '@' rest with
  | some (repoPart, digestPart) => (repoPart, digestPart)
  | none =>
    match splitAtFirst ':' rest with
    | some (repoPart, tagPart) => (repoPart, tagPart)
    | none => (rest, latestChars)

/-- Modelled from the spec: core of the reference parser over character lists.
Returns repository, tag or digest, and registry, in the order the Go
function parseImageDesc returns them. -/
def parseRef (desc : List Char) : List Char × List Char × List Char :=
  let rs := refRegistrySplit desc
  let ts := refTagSplit rs.2
  (ts.1, ts.2, rs.1)

/-- Modelled from the spec: the parseImageDesc front end of src main.go,
which returns repository, tag and registry for an image reference string. The
Go function delegates to the external docker-parser library, absent from the
source tree, so the parsing rules are taken from the design document. -/
def parseImageDesc (desc : String) : String × String × String :=
  let p := parseRef desc.data
  (⟨p.1⟩, ⟨p.2.1⟩, ⟨p.2.2⟩)

def MediaTypeDockerManifestList : String :=
  "application/vnd.docker.distribution.manifest.list.v2+json"

def MediaTypeDockerManifest : String :=
  "application/vnd.docker.distribution.manifest.v2+json"

def MediaTypeOCIManifest : String :=
  "application/vnd.oci.image.manifest.v1+json"

def MediaTypeOCIIndexManifest : String :=
  "application/vnd.oci.image.index.v1+json"

def MediaTypeDockerImageConfig : String :=
  "application/vnd.docker.container.image.v1+json"

def MediaTypeOCIImageConfig : String :=
  "application/vnd.oci.image.config.v1+json"

/-- List of config media types for images, as in the Go source. -/
def ImageConfigMediaTypes : List String :=
  [MediaTypeDockerImageConfig, MediaTypeOCIImageConfig]

/-- Content digest, carrying the algorithm and the encoded hex part, as the
Go digest type exposes them through Algorithm and Encoded. -/
structure ContentDigest where
  algorithm : String
  encoded : String
deriving DecidableEq

/-- Rebuild the canonical algorithm colon encoded digest string, as the Go
source does with fmt.Sprintf on Algorithm and Encoded. -/
def ContentDigest.toRef (d : ContentDigest) : String :=
  d.algorithm ++ ":" ++ d.encoded

/-- Content addressed pointer with a media type, one field per field of the
ocispec Descriptor actually read by the source. -/
structure Descriptor where
  mediaType : String
  digest : ContentDigest
deriving DecidableEq

/-- Manifest envelope as decoded by the registry package: the top level media
type, the config descriptor, and the child manifest descriptors populated for
manifest lists. -/
structure Manifest where
  mediaType : String
  config : Descriptor
  manifests : List Descriptor
deriving DecidableEq

/-- Oracle for the remote side of GetManifest: reference string to manifest,
or a transport failure message. -/
def FetchOracle : Type := String → Except String Manifest

/-- Error values produced by the manifest resolution functions, one
constructor per distinct Go error value. -/
inductive ResolveError where
  | fetchFailed (msg : String)
  | imageAlreadyIndexed
  | noValidImages
  | emptyConfigMediaType
  | unexpectedConfigMediaType (mt : String)
deriving DecidableEq

/-- Validate if a digest is a valid image manifest, from the registry
package: fetch the manifest, reject an empty config media type, accept a
config media type listed in ImageConfigMediaTypes, reject anything else. -/
def ValidateImageManifest (fetch : FetchOracle) (digest : String) :
    Except ResolveError Unit :=
  match fetch digest with
  | .error e => .error (.fetchFailed e)
  | .ok manifest =>
    if manifest.config.mediaType = "" then .error .emptyConfigMediaType
    else if ImageConfigMediaTypes.contains manifest.config.mediaType then .ok ()
    else .error (.unexpectedConfigMediaType manifest.config.mediaType)

/-- GetImageDigests from the registry package: fetch the manifest at the
given reference; fail with the image already indexed error when its media
type is the OCI index media type; for a Docker manifest list, walk the child
descriptors in order, keeping every child whose media type is the Docker
single platform manifest media type and whose manifest validates, and fail
with the no valid images error when none remains; otherwise treat the
manifest as a single platform image and validate its config media type
inline, returning the singleton digest set on success. -/
def GetImageDigests (fetch : FetchOracle) (digest : String) :
    Except ResolveError (List String) :=
  match fetch digest with
  | .error e => .error (.fetchFailed e)
  | .ok manifest =>
    if manifest.mediaType = MediaTypeOCIIndexManifest then
      .error .imageAlreadyIndexed
    else if manifest.mediaType = MediaTypeDockerManifestList then
      let digests := manifest.manifests.foldl
        (fun acc internalManifest =>
          if internalManifest.mediaType = MediaTypeDockerManifest then
            let internalDigest := internalManifest.digest.toRef
            match ValidateImageManifest fetch internalDigest with
            | .ok _ => acc ++ [internalDigest]
            | .error _ => acc
          else acc) []
      if digests = [] then .error .noValidImages else .ok digests
    else if manifest.config.mediaType = "" then
      .error .emptyConfigMediaType
    else if ImageConfigMediaTypes.contains manifest.config.mediaType then
      .ok [digest]
    else
      .error (.unexpectedConfigMediaType manifest.config.mediaType)

/-- Child selection made by the manifest list branch of GetImageDigests for
one child descriptor: some digest string when the child has the Docker
manifest media type and validates, none otherwise. -/
def childDigest (fetch : FetchOracle) (internalManifest : Descriptor) : Option String :=
  if internalManifest.mediaType = MediaTypeDockerManifest then
    match ValidateImageManifest fetch internalManifest.digest.toRef with
    | .ok _ => some internalManifest.digest.toRef
    | .error _ => none
  else none

/-- Does the second list start with the first list, character by character.
Used to model Go strings.Contains through its prefix checks. -/
def listStartsWith : List Char → List Char → Bool
  | [], _ => true
  | _ :: _, [] => false
  | p :: ps, x :: xs => p == x && listStartsWith ps xs

/-- Substring containment over character lists, modelling Go
strings.Contains: the needle occurs starting at some position of the
haystack. -/
def containsSub (pat : List Char) : List Char → Bool
  | [] => pat.isEmpty
  | x :: xs => listStartsWith pat (x :: xs) || containsSub pat xs

/-- The rejection message pattern matched by Push, written with the unicode
escape 0027 for the apostrophe characters of the Go string literal. -/
def ociRejectPattern : String :=
  "Response status code 405: unsupported: Invalid parameter at \u0027ImageManifest\u0027 failed to satisfy constraint: \u0027Invalid JSON syntax\u0027"

/-- Result of a push, separating the distinguished capability error value
from generic error values carried unchanged. -/
inductive PushOutcome where
  | ok
  | registryNotSupportingOciArtifacts
  | err (msg : String)
deriving DecidableEq

/-- Push from the registry package: a repository lookup failure is returned
unchanged; a graph copy failure whose message contains the 405 rejection
pattern becomes the distinguished capability error; any other copy failure is
returned unchanged; otherwise the push succeeds. -/
def Push (repoErr : Option String) (copyErr : Option String) : PushOutcome :=
  match repoErr with
  | some e => .err e
  | none =>
    match copyErr with
    | none => .ok
    | some e =>
      if containsSub ociRejectPattern.data e.data then
        .registryNotSupportingOciArtifacts
      else .err e

/-- Whitespace class of the Go regular expression engine, the complement of
the backslash S character class. -/
def goIsSpace (c : Char) : Bool :=
  c = ' ' || c = '\t' || c = '\n' || c = '\x0b' || c = '\x0c' || c = '\r'

/-- Strip an exact literal from the front of a list, returning the rest. -/
def stripLit : List Char → List Char → Option (List Char)
  | [], l => some l
  | _ :: _, [] => none
  | c :: p, x :: l => if x = c then stripLit p l else none

/-- Strip exactly n decimal digits from the front of a list. -/
def stripDigits : Nat → List Char → Option (List Char)
  | 0, l => some l
  | _ + 1, [] => none
  | n + 1, c :: l => if c.isDigit then stripDigits n l else none

/-- Match one or more non space characters followed by the given literal,
with backtracking over the length of the non space run, as the regular
expression fragment backslash S plus followed by a literal does. -/
def nonSpaceThenLit (lit : List Char) : List Char → Bool
  | [] => false
  | c :: t =>
    !goIsSpace c && ((stripLit lit t).isSome || nonSpaceThenLit lit t)

/-- Match the ECR host pattern at the start of the list: twelve digits, the
literal dot dkr dot ecr dot, a non empty non space run, and the literal dot
amazonaws dot com, with arbitrary trailing characters. -/
def ecrFrom (l : List Char) : Bool :=
  match stripDigits 12 l with
  | none => false
  | some r1 =>
    match stripLit ".dkr.ecr.".data r1 with
    | none => false
    | some r2 => nonSpaceThenLit ".amazonaws.com".data r2

/-- Check if a registry is an ECR registry, from the registry package: an
unanchored search for the ECR host regular expression. -/
def isEcrRegistry (registryUrl : String) : Bool :=
  registryUrl.data.tails.any ecrFrom

/-- Oracles for the AWS SDK steps of authorizeEcr: the default configuration
load, and the authorization token exchange returning the list of
authorization data tokens. -/
structure EcrEnv where
  loadConfig : Except String Unit
  getAuthorizationToken : Except String (List String)

/-- Credentials installed on the registry handle by Init, used for every
subsequent call made through the handle. The basic constructors stand for the
basic authorization header built from the carried token. -/
inductive InstalledCreds where
  | basicAuthToken (token : String)
  | basicEcr (token : String)
  | noCreds
deriving DecidableEq

/-- Authorize ECR registry, from the registry package: load the ambient AWS
configuration, call the token exchange, fail on an empty authorization data
list or an empty first token, and otherwise return the token installed into
the basic authorization header. -/
def authorizeEcr (env : EcrEnv) : Except String String :=
  match env.loadConfig with
  | .error e => .error ("failed to load AWS config: " ++ e)
  | .ok _ =>
    match env.getAuthorizationToken with
    | .error e => .error e
    | .ok authData =>
      match authData with
      | [] => .error "Couldn\u0027t authorize with ECR: empty authorization data returned"
      | t :: _ =>
        if t.length = 0 then
          .error "Couldn\u0027t authorize with ECR: empty authorization token returned"
        else .ok t

/-- Init from the registry package: after the remote registry handle is
created, a non empty explicit auth token is installed verbatim into the basic
authorization header; otherwise an ECR looking host triggers the ECR token
exchange, whose failure aborts initialization; otherwise no credentials are
installed. The handle creation step is an oracle. -/
def Init (newRegistryOk : Except String Unit) (registryUrl : String)
    (authToken : String) (ecrEnv : EcrEnv) : Except String InstalledCreds :=
  match newRegistryOk with
  | .error e => .error e
  | .ok _ =>
    if authToken = "" then
      if isEcrRegistry registryUrl then
        match authorizeEcr ecrEnv with
        | .error e => .error e
        | .ok t => .ok (.basicEcr t)
      else .ok .noCreds
    else .ok (.basicAuthToken authToken)

/-- Message of the ErrEmptyIndex error value duplicated in the handler. -/
def ErrEmptyIndexMessage : String :=
  "no ztocs created, all layers either skipped or produced errors"

def BuildFailedMessage : String := "SOCI index build error"

def PushFailedMessage : String := "SOCI index push error"

def SkipPushOnEmptyIndexMessage : String :=
  "Skipping pushing SOCI index as it does not contain any zTOCs"

def BuildAndPushSuccessMessage : String := "Successfully built and pushed SOCI index"

def RegistryInitFailedMessage : String := "Remote registry initialization error"

def ManifestValidationSkipMessage : String :=
  "Exited early due to manifest validation error"

def DirectoryCreateFailedMessage : String := "Directory create error"

def StoreInitFailedMessage : String := "OCI storage initialization error"

def ImagePullFailedMessage : String := "Image pull error"

/-- Observable actions of one orchestration run. -/
inductive RunAction where
  | pull (digest : String)
  | build (digest : String)
  | push (digest : String)
  | cleanup
deriving DecidableEq

/-- Oracles for the effectful steps of indexAndPush. Errors are carried as
their Go message so that the handler comparison of a build error against the
empty index error message is expressible. -/
structure Env where
  initOk : Except String Unit
  fetch : FetchOracle
  tempDir : Except String String
  storeOk : Except String Unit
  pull : String → Except String Unit
  buildIndex : String → Except String String
  push : String → Except String Unit

/-- Outcome of a run: the status string, the returned error (none for the Go
nil error), and the ordered action trace. -/
structure RunOut where
  msg : String
  err : Option String
  actions : List RunAction
deriving DecidableEq

/-- Does a build step error carry exactly the empty index message, as the
handler compares the error text against ErrEmptyIndex. -/
def isEmptyErr {α : Type} : Except String α → Bool
  | .error e => e = ErrEmptyIndexMessage
  | .ok _ => false

/-- Per digest loop of indexAndPush: pull, build with the empty index escape,
push, then the next digest; the first failure ends the run with the logged
message and the propagated error. -/
def digestLoop (env : Env) : List String → RunOut
  | [] => ⟨BuildAndPushSuccessMessage, none, []⟩
  | d :: rest =>
    match env.pull d with
    | .error e => ⟨ImagePullFailedMessage, some e, [.pull d]⟩
    | .ok _ =>
      match env.buildIndex d with
      | .error e =>
        if e = ErrEmptyIndexMessage then
          ⟨SkipPushOnEmptyIndexMessage, none, [.pull d, .build d]⟩
        else
          ⟨BuildFailedMessage, some e, [.pull d, .build d]⟩
      | .ok _ =>
        match env.push d with
        | .error e => ⟨PushFailedMessage, some e, [.pull d, .build d, .push d]⟩
        | .ok _ =>
          let out := digestLoop env rest
          ⟨out.msg, out.err, .pull d :: .build d :: .push d :: out.actions⟩

/-- indexAndPush from src handler.go: initialize the registry handle,
resolve the digest set and swallow every resolution failure as a benign
skip, create the temp directory, schedule its removal, initialize the store
and run the per digest loop; the deferred removal runs on every path that
was reached after the temp directory was created. -/
def indexAndPush (env : Env) (tag : String) : RunOut :=
  match env.initOk with
  | .error e => ⟨RegistryInitFailedMessage, some e, []⟩
  | .ok _ =>
    match GetImageDigests env.fetch tag with
    | .error _ => ⟨ManifestValidationSkipMessage, none, []⟩
    | .ok digests =>
      match env.tempDir with
      | .error e => ⟨DirectoryCreateFailedMessage, some e, []⟩
      | .ok _ =>
        match env.storeOk with
        | .error e => ⟨StoreInitFailedMessage, some e, [.cleanup]⟩
        | .ok _ =>
          let out := digestLoop env digests
          ⟨out.msg, out.err, out.actions ++ [.cleanup]⟩

/-- Full success of all three steps for one digest. -/
def digestOkB (env : Env) (d : String) : Bool :=
  isOkB (env.pull d) && isOkB (env.buildIndex d) && isOkB (env.push d)

/-- Outcome of the command line dispatch before the pipeline runs. -/
inductive CliOutcome where
  | errorExit (msg : String)
  | invoke (repo tag newTag registry : String)
deriving DecidableEq

/-- Dispatch logic of the Run closure in src main.go. -/
def cliRun (desc : String) (newTagFlag : String) : CliOutcome :=
  let p := parseImageDesc desc
  let repo := p.1
  let tag := p.2.1
  let registry := p.2.2
  if containsSub [':'] tag.data then .errorExit "Tag cannot be a digest"
  else if tag = "" then .errorExit "Tag is required"
  else .invoke repo tag (if newTagFlag = "" then tag else newTagFlag) registry

/-- The run ends in the empty index skip: some prefix of the digest list is
fully processed, and the next digest pulls fine but builds to an error
carrying exactly the empty index message. -/
def emptyIndexSkip (env : Env) (l : List String) : Prop :=
  ∃ l₁ d l₂, l = l₁ ++ d :: l₂ ∧ (∀ e ∈ l₁, digestOkB env e = true) ∧
    isOkB (env.pull d) = true ∧ isEmptyErr (env.buildIndex d) = true

/-- Condition under which indexAndPush returns a nil error: registry
initialization succeeded, and then either manifest resolution failed for any
reason, or it succeeded and the workspace steps succeeded and the digest loop
either fully succeeded or ended in the empty index skip. -/
def nilErrorCondition (env : Env) (tag : String) : Prop :=
  isOkB env.initOk = true ∧
    (isOkB (GetImageDigests env.fetch tag) = false ∨
      ∃ digests, GetImageDigests env.fetch tag = .ok digests ∧
        isOkB env.tempDir = true ∧ isOkB env.storeOk = true ∧
        ((∀ d ∈ digests, digestOkB env d = true) ∨ emptyIndexSkip env digests))

/-- Manifest used by the C9 witness: an OCI index with a populated child list
and a nonsense config, showing the contents are never inspected. -/
def ociIndexSample : Manifest :=
  { mediaType := MediaTypeOCIIndexManifest,
    config := { mediaType := "anything/else", digest := { algorithm := "sha256", encoded := "cc" } },
    manifests := [ { mediaType := MediaTypeDockerManifest,
                     digest := { algorithm := "sha256", encoded := "aa" } } ] }

def fetchC9 : FetchOracle := fun _ => .ok ociIndexSample

/-- Manifest used by the C8 witness: a single platform OCI image manifest
with the OCI image config media type. -/
def singlePlatformSample : Manifest :=
  { mediaType := MediaTypeOCIManifest,
    config := { mediaType := MediaTypeOCIImageConfig,
                digest := { algorithm := "sha256", encoded := "cfg" } },
    manifests := [] }

def fetchC8 : FetchOracle := fun _ => .ok singlePlatformSample

/-- Single platform OCI image manifest with a valid OCI config, used as a
manifest list child by the C3 counterexample. -/
def ociChildSample : Manifest :=
  { mediaType := MediaTypeOCIManifest,
    config := { mediaType := MediaTypeOCIImageConfig,
                digest := { algorithm := "sha256", encoded := "cfg2" } },
    manifests := [] }

/-- Docker manifest list whose only child carries the OCI image manifest
media type. -/
def ociChildListSample : Manifest :=
  { mediaType := MediaTypeDockerManifestList,
    config := { mediaType := "", digest := { algorithm := "", encoded := "" } },
    manifests := [ { mediaType := MediaTypeOCIManifest,
                     digest := { algorithm := "sha256", encoded := "c1" } } ] }

def fetchC3 : FetchOracle := fun r =>
  if r = "sha256:top" then .ok ociChildListSample
  else if r = "sha256:c1" then .ok ociChildSample
  else .error "not found"

/-- Docker manifest child with a valid Docker config, used by the C3
witness. -/
def dockerChildSample : Manifest :=
  { mediaType := MediaTypeDockerManifest,
    config := { mediaType := MediaTypeDockerImageConfig,
                digest := { algorithm := "sha256", encoded := "cfg1" } },
    manifests := [] }

/-- Docker manifest list mixing a Docker typed child with an OCI typed
child. -/
def dockerListSample : Manifest :=
  { mediaType := MediaTypeDockerManifestList,
    config := { mediaType := "", digest := { algorithm := "", encoded := "" } },
    manifests := [ { mediaType := MediaTypeDockerManifest,
                     digest := { algorithm := "sha256", encoded := "c1" } },
                   { mediaType := MediaTypeOCIManifest,
                     digest := { algorithm := "sha256", encoded := "c2" } } ] }

def fetchC3w : FetchOracle := fun r =>
  if r = "sha256:top" then .ok dockerListSample
  else if r = "sha256:c1" then .ok dockerChildSample
  else if r = "sha256:c2" then .ok ociChildSample
  else .error "not found"

/-- Exchange environment returning an empty authorization data list. -/
def ecrEnvEmptyData : EcrEnv :=
  { loadConfig := .ok (), getAuthorizationToken := .ok [] }

/-- Environment whose manifest fetch fails at the transport level while every
other step would succeed. -/
def envResolveFail : Env :=
  { initOk := .ok (), fetch := fun _ => .error "connection reset by peer",
    tempDir := .ok "/tmp/soci", storeOk := .ok (),
    pull := fun _ => .ok (), buildIndex := fun _ => .ok "sha256:index",
    push := fun _ => .ok () }

/-- Environment resolving to a single digest whose build reports the empty
index signal. -/
def envEmptyBuild : Env :=
  { initOk := .ok (), fetch := fetchC8, tempDir := .ok "/tmp/soci",
    storeOk := .ok (), pull := fun _ => .ok (),
    buildIndex := fun _ => .error ErrEmptyIndexMessage,
    push := fun _ => .ok () }

theorem isOkB_ok {ε α : Type} (a : α) : isOkB (Except.ok (ε := ε) a) = true := rfl

theorem isOkB_error {ε α : Type} (e : ε) : isOkB (Except.error (α := α) e) = false := rfl

theorem isOkB_eq_true_iff {ε α : Type} (x : Except ε α) :
    isOkB x = true ↔ ∃ a, x = .ok a := by
  cases x <;> simp [isOkB]

theorem isOkB_eq_false_iff {ε α : Type} (x : Except ε α) :
    isOkB x = false ↔ ∃ e, x = .error e := by
  cases x <;> simp [isOkB]

theorem splitAtFirst_of_not_mem {sep : Char} {l : List Char} (h : sep ∉ l) :
    splitAtFirst sep l = none := by
  induction l with
  | nil => rfl
  | cons c rest ih =>
    simp only [List.mem_cons, not_or] at h
    rw [splitAtFirst, if_neg (fun hc => h.1 hc.symm), ih h.2]

theorem splitAtFirst_append {sep : Char} {a : List Char} (b : List Char) (h : sep ∉ a) :
    splitAtFirst sep (a ++ sep :: b) = some (a, b) := by
  induction a with
  | nil => simp [splitAtFirst]
  | cons c rest ih =>
    simp only [List.mem_cons, not_or] at h
    rw [List.cons_append, splitAtFirst, if_neg (fun hc => h.1 hc.symm), ih h.2]

theorem splitAtFirst_eq_some {sep : Char} {l a b : List Char}
    (h : splitAtFirst sep l = some (a, b)) : l = a ++ sep :: b ∧ sep ∉ a := by
  induction l generalizing a b with
  | nil => simp [splitAtFirst] at h
  | cons c rest ih =>
    rw [splitAtFirst] at h
    by_cases hc : c = sep
    · rw [if_pos hc] at h
      cases h
      simp [hc]
    · rw [if_neg hc] at h
      cases hr : splitAtFirst sep rest with
      | none => rw [hr] at h; cases h
      | some p =>
        rw [hr] at h
        cases p with
        | mk a' b' =>
          cases h
          rcases ih hr with ⟨h1, h2⟩
          constructor
          · simp [h1]
          · simp only [List.mem_cons, not_or]
            exact ⟨fun hs => hc hs.symm, h2⟩

theorem foldl_children_eq_filterMap (fetch : FetchOracle) (l : List Descriptor)
    (acc : List String) :
    l.foldl
      (fun acc internalManifest =>
        if internalManifest.mediaType = MediaTypeDockerManifest then
          let internalDigest := internalManifest.digest.toRef
          match ValidateImageManifest fetch internalDigest with
          | .ok _ => acc ++ [internalDigest]
          | .error _ => acc
        else acc) acc = acc ++ l.filterMap (childDigest fetch) := by
  induction l generalizing acc with
  | nil => simp
  | cons c rest ih =>
    rw [List.foldl_cons, List.filterMap_cons]
    by_cases hm : c.mediaType = MediaTypeDockerManifest
    · simp only [if_pos hm, childDigest, hm, if_pos]
      cases hv : ValidateImageManifest fetch c.digest.toRef with
      | ok u => rw [ih]; simp
      | error e => rw [ih]
    · simp only [if_neg hm, childDigest, if_neg hm]
      exact ih acc

/-- C3 amended: for every manifest whose media type is the Docker manifest
list media type, the returned digest set is exactly the in order filter of the
child descriptors keeping each child whose media type is the Docker single
platform manifest media type and whose manifest validates; children of any
other media type, OCI image manifests included, are silently skipped, and an
empty filter result is the no valid images error rather than an empty
success. -/
theorem C3_manifest_list_docker_children (fetch : FetchOracle) (digest : String)
    (m : Manifest) (hf : fetch digest = .ok m)
    (hl : m.mediaType = MediaTypeDockerManifestList) :
    GetImageDigests fetch digest =
      (if m.manifests.filterMap (childDigest fetch) = [] then .error .noValidImages
       else .ok (m.manifests.filterMap (childDigest fetch))) := by
  have hne : m.mediaType ≠ MediaTypeOCIIndexManifest := by
    rw [hl]; decide
  simp only [GetImageDigests, hf]
  rw [if_neg hne, if_pos hl, foldl_children_eq_filterMap fetch m.manifests []]
  simp

theorem cons_eq_append_cons {α : Type} {x : α} {xs l₁ l₂ : List α} {d : α}
    (h : x :: xs = l₁ ++ d :: l₂) :
    (l₁ = [] ∧ d = x ∧ l₂ = xs) ∨ (∃ l₁', l₁ = x :: l₁' ∧ xs = l₁' ++ d :: l₂) := by
  cases l₁ with
  | nil =>
    simp only [List.nil_append, List.cons_eq_cons] at h
    exact Or.inl ⟨rfl, h.1.symm, h.2.symm⟩
  | cons y ys =>
    simp only [List.cons_append, List.cons_eq_cons] at h
    exact Or.inr ⟨ys, by rw [h.1], h.2⟩

theorem digestOkB_false_of_pull {env : Env} {d e : String}
    (hp : env.pull d = .error e) : digestOkB env d = false := by
  simp [digestOkB, hp, isOkB]

theorem digestOkB_false_of_build {env : Env} {d e : String}
    (hb : env.buildIndex d = .error e) : digestOkB env d = false := by
  simp [digestOkB, hb, isOkB]

theorem digestOkB_false_of_push {env : Env} {d e : String}
    (hp : env.push d = .error e) : digestOkB env d = false := by
  simp [digestOkB, hp, isOkB]

theorem emptyIndexSkip_head_elim {env : Env} {d : String} {rest : List String}
    (hnotok : digestOkB env d = false)
    (hnotskip : ¬(isOkB (env.pull d) = true ∧ isEmptyErr (env.buildIndex d) = true)) :
    ¬((∀ x ∈ d :: rest, digestOkB env x = true) ∨ emptyIndexSkip env (d :: rest)) := by
  intro h
  rcases h with hall | ⟨l₁, d', l₂, hsplit, hok, hpull, hempty⟩
  · have hmem := hall d (List.mem_cons_self d rest)
    rw [hnotok] at hmem
    cases hmem
  · rcases cons_eq_append_cons hsplit with ⟨_, h2, _⟩ | ⟨l₁', h1, _⟩
    · exact hnotskip ⟨h2 ▸ hpull, h2 ▸ hempty⟩
    · have hmem := hok d (by rw [h1]; exact List.mem_cons_self d l₁')
      rw [hnotok] at hmem
      cases hmem

theorem emptyIndexSkip_cons_ok {env : Env} {d : String} {rest : List String}
    (hok : digestOkB env d = true) (hnotempty : isEmptyErr (env.buildIndex d) = false) :
    ((∀ x ∈ d :: rest, digestOkB env x = true) ∨ emptyIndexSkip env (d :: rest)) ↔
      ((∀ x ∈ rest, digestOkB env x = true) ∨ emptyIndexSkip env rest) := by
  constructor
  · intro h
    rcases h with hall | ⟨l₁, d', l₂, hsplit, hokl, hpull, hempty⟩
    · exact Or.inl fun x hx => hall x (List.mem_cons_of_mem d hx)
    · rcases cons_eq_append_cons hsplit with ⟨_, h2, _⟩ | ⟨l₁', h1, h2⟩
      · rw [h2] at hempty
        rw [hnotempty] at hempty
        cases hempty
      · exact Or.inr ⟨l₁', d', l₂, h2, fun e he => hokl e (by rw [h1]; exact List.mem_cons_of_mem d he), hpull, hempty⟩
  · intro h
    rcases h with hall | ⟨l₁, d', l₂, hsplit, hokl, hpull, hempty⟩
    · refine Or.inl fun x hx => ?_
      rcases List.mem_cons.mp hx with hx | hx
      · rw [hx]; exact hok
      · exact hall x hx
    · refine Or.inr ⟨d :: l₁, d', l₂, by rw [hsplit, List.cons_append], ?_, hpull, hempty⟩
      intro e he
      rcases List.mem_cons.mp he with he | he
      · rw [he]; exact hok
      · exact hokl e he

theorem isEmptyErr_false_of_ok {env : Env} {d : String}
    (h : isOkB (env.buildIndex d) = true) : isEmptyErr (env.buildIndex d) = false := by
  cases hb : env.buildIndex d with
  | ok _ => rfl
  | error e => rw [hb] at h; cases h

/-- The per digest loop returns a nil error exactly when every digest fully
succeeds or the list reaches an empty index build after a fully successful
prefix. -/
theorem digestLoop_err_none_iff (env : Env) (l : List String) :
    (digestLoop env l).err = none ↔
      ((∀ d ∈ l, digestOkB env d = true) ∨ emptyIndexSkip env l) := by
  induction l with
  | nil =>
    constructor
    · intro _
      exact Or.inl (by simp)
    · intro _
      rfl
  | cons d rest ih =>
    cases hp : env.pull d with
    | error e =>
      simp only [digestLoop, hp]
      constructor
      · intro h
        cases h
      · intro h
        exact absurd h (emptyIndexSkip_head_elim (digestOkB_false_of_pull hp)
          (fun ⟨h1, _⟩ => by rw [hp] at h1; cases h1))
    | ok u =>
      cases hb : env.buildIndex d with
      | error e =>
        by_cases he : e = ErrEmptyIndexMessage
        · simp only [digestLoop, hp, hb, if_pos he]
          constructor
          · intro _
            exact Or.inr ⟨[], d, rest, rfl, by simp, by rw [hp]; rfl,
              by rw [hb]; simp [isEmptyErr, he]⟩
          · intro _
            trivial
        · simp only [digestLoop, hp, hb, if_neg he]
          constructor
          · intro h
            cases h
          · intro h
            refine absurd h (emptyIndexSkip_head_elim (digestOkB_false_of_build hb) ?_)
            rintro ⟨_, h2⟩
            rw [hb] at h2
            simp [isEmptyErr] at h2
            exact he h2
      | ok i =>
        cases hpu : env.push d with
        | error e =>
          simp only [digestLoop, hp, hb, hpu]
          constructor
          · intro h
            cases h
          · intro h
            refine absurd h (emptyIndexSkip_head_elim (digestOkB_false_of_push hpu) ?_)
            rintro ⟨_, h2⟩
            rw [hb] at h2
            cases h2
        | ok _ =>
          have hok : digestOkB env d = true := by simp [digestOkB, hp, hb, hpu, isOkB]
          have hne : isEmptyErr (env.buildIndex d) = false := by rw [hb]; rfl
          simp only [digestLoop, hp, hb, hpu]
          rw [show (⟨(digestLoop env rest).msg, (digestLoop env rest).err,
            RunAction.pull d :: RunAction.build d :: RunAction.push d ::
              (digestLoop env rest).actions⟩ : RunOut).err = (digestLoop env rest).err from rfl]
          rw [ih, emptyIndexSkip_cons_ok hok hne]

/-- A push action for a digest can only enter the trace after the build for
that digest succeeded in the same iteration. -/
theorem build_ok_of_push_mem (env : Env) (l : List String) (d : String)
    (h : RunAction.push d ∈ (digestLoop env l).actions) :
    isOkB (env.buildIndex d) = true := by
  induction l with
  | nil => simp [digestLoop] at h
  | cons x rest ih =>
    cases hp : env.pull x with
    | error e =>
      simp only [digestLoop, hp] at h
      simp at h
    | ok u =>
      cases hb : env.buildIndex x with
      | error e =>
        by_cases he : e = ErrEmptyIndexMessage
        · simp only [digestLoop, hp, hb, if_pos he] at h
          simp at h
        · simp only [digestLoop, hp, hb, if_neg he] at h
          simp at h
      | ok i =>
        cases hpu : env.push x with
        | error e =>
          simp only [digestLoop, hp, hb, hpu] at h
          simp at h
          rw [h, hb]
          rfl
        | ok v =>
          simp only [digestLoop, hp, hb, hpu] at h
          simp at h
          rcases h with h | h
          · rw [h, hb]
            rfl
          · exact ih h

/-- The per digest loop never performs the cleanup action itself. -/
theorem cleanup_not_mem_digestLoop (env : Env) (l : List String) :
    RunAction.cleanup ∉ (digestLoop env l).actions := by
  induction l with
  | nil => simp [digestLoop]
  | cons x rest ih =>
    cases hp : env.pull x with
    | error e => simp [digestLoop, hp]
    | ok u =>
      cases hb : env.buildIndex x with
      | error e =>
        by_cases he : e = ErrEmptyIndexMessage
        · simp [digestLoop, hp, hb, if_pos he]
        · simp [digestLoop, hp, hb, if_neg he]
      | ok i =>
        cases hpu : env.push x with
        | error e => simp [digestLoop, hp, hb, hpu]
        | ok v => simp [digestLoop, hp, hb, hpu, ih]

/-- Reaching a digest that pulls fine and builds to the empty index error
after a fully successful prefix ends the loop with the skip message and a nil
error. -/
theorem digestLoop_skip (env : Env) (l₁ : List String) (d : String) (l₂ : List String)
    (hok : ∀ e ∈ l₁, digestOkB env e = true)
    (hpull : isOkB (env.pull d) = true)
    (hempty : isEmptyErr (env.buildIndex d) = true) :
    (digestLoop env (l₁ ++ d :: l₂)).msg = SkipPushOnEmptyIndexMessage ∧
      (digestLoop env (l₁ ++ d :: l₂)).err = none := by
  induction l₁ with
  | nil =>
    obtain ⟨u, hp⟩ := (isOkB_eq_true_iff _).mp hpull
    have hb : env.buildIndex d = .error ErrEmptyIndexMessage := by
      cases hbb : env.buildIndex d with
      | ok _ =>
        rw [hbb] at hempty
        cases hempty
      | error e =>
        rw [hbb] at hempty
        simp [isEmptyErr] at hempty
        rw [hempty]
    simp [digestLoop, hp, hb]
  | cons x l₁' ih =>
    have hx := hok x (List.mem_cons_self x l₁')
    simp only [digestOkB, Bool.and_eq_true] at hx
    obtain ⟨u, hpx⟩ := (isOkB_eq_true_iff _).mp hx.1.1
    obtain ⟨i, hbx⟩ := (isOkB_eq_true_iff _).mp hx.1.2
    obtain ⟨v, hpux⟩ := (isOkB_eq_true_iff _).mp hx.2
    have ihh := ih (fun e he => hok e (List.mem_cons_of_mem x he))
    simp only [List.cons_append, digestLoop, hpx, hbx, hpux]
    exact ihh

/-- C1 amended: the error returned by indexAndPush is nil exactly when the
run fully succeeds, or manifest resolution fails for any reason whatsoever,
transport failures while fetching the manifest included, or the run ends in
the empty index build skip; registry initialization failures, temp directory
and store failures, pull failures, build failures other than the empty index
signal, and push failures always propagate as a non nil error. -/
theorem C1_err_nil_iff_amended (env : Env) (tag : String) :
    (indexAndPush env tag).err = none ↔ nilErrorCondition env tag := by
  rw [nilErrorCondition]
  cases hi : env.initOk with
  | error e =>
    simp only [indexAndPush, hi]
    constructor
    · intro h
      cases h
    · rintro ⟨h1, _⟩
      simp [isOkB] at h1
  | ok iu =>
    cases hg : GetImageDigests env.fetch tag with
    | error re =>
      simp only [indexAndPush, hi, hg]
      constructor
      · intro _
        exact ⟨rfl, Or.inl rfl⟩
      · intro _
        trivial
    | ok digests =>
      cases ht : env.tempDir with
      | error e =>
        simp only [indexAndPush, hi, hg, ht]
        constructor
        · intro h
          cases h
        · rintro ⟨_, h2 | ⟨ds, hds, htd, _⟩⟩
          · simp [isOkB] at h2
          · simp [isOkB] at htd
      | ok dir =>
        cases hs : env.storeOk with
        | error e =>
          simp only [indexAndPush, hi, hg, ht, hs]
          constructor
          · intro h
            cases h
          · rintro ⟨_, h2 | ⟨ds, hds, _, hst, _⟩⟩
            · simp [isOkB] at h2
            · simp [isOkB] at hst
        | ok su =>
          have hloop := digestLoop_err_none_iff env digests
          simp only [indexAndPush, hi, hg, ht, hs]
          constructor
          · intro h
            exact ⟨rfl, Or.inr ⟨digests, rfl, rfl, rfl, hloop.mp h⟩⟩
          · rintro ⟨_, h2 | ⟨ds, hds, _, _, hgood⟩⟩
            · simp [isOkB] at h2
            · cases hds
              exact hloop.mpr hgood

theorem exists_first_occ {sep : Char} {l : List Char} (h : sep ∈ l) :
    ∃ a b, l = a ++ sep :: b ∧ sep ∉ a ∧ a = l.takeWhile (fun c => !(c == sep)) := by
  induction l with
  | nil => cases h
  | cons c rest ih =>
    by_cases hc : c = sep
    · refine ⟨[], rest, by rw [hc]; rfl, by simp, ?_⟩
      rw [List.takeWhile_cons]
      simp [hc]
    · have hr : sep ∈ rest := by
        rcases List.mem_cons.mp h with h1 | h1
        · exact absurd h1.symm hc
        · exact h1
      obtain ⟨a, b, h1, h2, h3⟩ := ih hr
      refine ⟨c :: a, b, by rw [List.cons_append, h1], ?_, ?_⟩
      · simp only [List.mem_cons, not_or]
        exact ⟨fun hs => hc hs.symm, h2⟩
      · rw [List.takeWhile_cons]
        simp [hc, h3]

theorem refRegistrySplit_noHost (repo suffix : List Char)
    (hRepoColon : ':' ∉ repo)
    (hRepoSeg : '.' ∉ repo.takeWhile (fun c => !(c == '/')))
    (hSufSlash : '/' ∉ suffix) :
    refRegistrySplit (repo ++ suffix) = (dockerIoChars, repo ++ suffix) := by
  by_cases hsl : '/' ∈ repo
  · obtain ⟨a, b, h1, h2, h3⟩ := exists_first_occ hsl
    have hsplit : splitAtFirst '/' (repo ++ suffix) = some (a, b ++ suffix) := by
      rw [h1, List.append_assoc, List.cons_append]
      exact splitAtFirst_append (b ++ suffix) h2
    have hdot : '.' ∉ a := by rw [h3]; exact hRepoSeg
    have hcol : ':' ∉ a := fun hm => hRepoColon (by rw [h1]; exact List.mem_append_left _ hm)
    simp only [refRegistrySplit, hsplit]
    rw [if_neg (by rintro (h | h); exact hdot h; exact hcol h)]
  · have : '/' ∉ repo ++ suffix := by
      intro hm
      rcases List.mem_append.mp hm with hm | hm
      · exact hsl hm
      · exact hSufSlash hm
    simp only [refRegistrySplit, splitAtFirst_of_not_mem this]

theorem refRegistrySplit_host (host rest : List Char)
    (hHostDot : '.' ∈ host) (hHostSlash : '/' ∉ host) :
    refRegistrySplit (host ++ '/' :: rest) = (host, rest) := by
  simp only [refRegistrySplit, splitAtFirst_append rest hHostSlash]
  rw [if_pos (Or.inl hHostDot)]

theorem refTagSplit_plain (r : List Char) (hAt : '@' ∉ r) (hColon : ':' ∉ r) :
    refTagSplit r = (r, latestChars) := by
  simp only [refTagSplit, splitAtFirst_of_not_mem hAt, splitAtFirst_of_not_mem hColon]

theorem refTagSplit_tag (repo tag : List Char)
    (hRepoAt : '@' ∉ repo) (hRepoColon : ':' ∉ repo) (hTagAt : '@' ∉ tag) :
    refTagSplit (repo ++ ':' :: tag) = (repo, tag) := by
  have hAt : '@' ∉ repo ++ ':' :: tag := by
    intro hm
    rcases List.mem_append.mp hm with hm | hm
    · exact hRepoAt hm
    · rcases List.mem_cons.mp hm with hm | hm
      · cases hm
      · exact hTagAt hm
  simp only [refTagSplit, splitAtFirst_of_not_mem hAt, splitAtFirst_append tag hRepoColon]

theorem refTagSplit_digest (repo dig : List Char) (hRepoAt : '@' ∉ repo) :
    refTagSplit (repo ++ '@' :: dig) = (repo, dig) := by
  simp only [refTagSplit, splitAtFirst_append dig hRepoAt]

theorem not_mem_cons_of {c x : Char} {l : List Char} (hne : c ≠ x) (hl : c ∉ l) :
    c ∉ x :: l := by
  intro hm
  rcases List.mem_cons.mp hm with h | h
  · exact hne h
  · exact hl h

theorem parseImageDesc_mk (l : List Char) :
    parseImageDesc ⟨l⟩ = (⟨(parseRef l).1⟩, ⟨(parseRef l).2.1⟩, ⟨(parseRef l).2.2⟩) := rfl

/-- C2: for every reference string of the forms repo, repo colon tag, repo at
digest, and host slash repo with those suffixes, parsing returns registry
docker.io when no host segment is present and the supplied host otherwise,
returns tag latest when no tag or digest suffix is present, and returns the
exact digest string in algorithm colon hex form as the tag when a digest
suffix is present. The components range over character lists subject to the
well formedness of the claimed forms: the host contains a dot and no slash,
the repository contains no colon and no at sign and its first slash separated
segment contains no dot, the tag contains no slash and no at sign, and the
digest string contains no slash. -/
theorem C2_parse_reference_forms (host repo tag dig : List Char)
    (hHostDot : '.' ∈ host) (hHostSlash : '/' ∉ host)
    (hRepoAt : '@' ∉ repo) (hRepoColon : ':' ∉ repo)
    (hRepoSeg : '.' ∉ repo.takeWhile (fun c => !(c == '/')))
    (hTagAt : '@' ∉ tag) (hTagSlash : '/' ∉ tag)
    (hDigSlash : '/' ∉ dig) :
    parseImageDesc ⟨repo⟩ = (⟨repo⟩, "latest", "docker.io") ∧
      parseImageDesc ⟨repo ++ ':' :: tag⟩ = (⟨repo⟩, ⟨tag⟩, "docker.io") ∧
      parseImageDesc ⟨repo ++ '@' :: dig⟩ = (⟨repo⟩, ⟨dig⟩, "docker.io") ∧
      parseImageDesc ⟨host ++ '/' :: repo⟩ = (⟨repo⟩, "latest", ⟨host⟩) ∧
      parseImageDesc ⟨host ++ '/' :: (repo ++ ':' :: tag)⟩ = (⟨repo⟩, ⟨tag⟩, ⟨host⟩) ∧
      parseImageDesc ⟨host ++ '/' :: (repo ++ '@' :: dig)⟩ = (⟨repo⟩, ⟨dig⟩, ⟨host⟩) := by
  refine ⟨?_, ?_, ?_, ?_, ?_, ?_⟩
  · have hr := refRegistrySplit_noHost repo [] hRepoColon hRepoSeg (by simp)
    rw [List.append_nil] at hr
    have hp : parseRef repo = (repo, latestChars, dockerIoChars) := by
      simp only [parseRef, hr, refTagSplit_plain repo hRepoAt hRepoColon]
    rw [parseImageDesc_mk, hp]
    rfl
  · have hr := refRegistrySplit_noHost repo (':' :: tag) hRepoColon hRepoSeg
      (not_mem_cons_of (by decide) hTagSlash)
    have hp : parseRef (repo ++ ':' :: tag) = (repo, tag, dockerIoChars) := by
      simp only [parseRef, hr, refTagSplit_tag repo tag hRepoAt hRepoColon hTagAt]
    rw [parseImageDesc_mk, hp]
    rfl
  · have hr := refRegistrySplit_noHost repo ('@' :: dig) hRepoColon hRepoSeg
      (not_mem_cons_of (by decide) hDigSlash)
    have hp : parseRef (repo ++ '@' :: dig) = (repo, dig, dockerIoChars) := by
      simp only [parseRef, hr, refTagSplit_digest repo dig hRepoAt]
    rw [parseImageDesc_mk, hp]
    rfl
  · have hr := refRegistrySplit_host host repo hHostDot hHostSlash
    have hp : parseRef (host ++ '/' :: repo) = (repo, latestChars, host) := by
      simp only [parseRef, hr, refTagSplit_plain repo hRepoAt hRepoColon]
    rw [parseImageDesc_mk, hp]
    rfl
  · have hr := refRegistrySplit_host host (repo ++ ':' :: tag) hHostDot hHostSlash
    have hp : parseRef (host ++ '/' :: (repo ++ ':' :: tag)) = (repo, tag, host) := by
      simp only [parseRef, hr, refTagSplit_tag repo tag hRepoAt hRepoColon hTagAt]
    rw [parseImageDesc_mk, hp]
  · have hr := refRegistrySplit_host host (repo ++ '@' :: dig) hHostDot hHostSlash
    have hp : parseRef (host ++ '/' :: (repo ++ '@' :: dig)) = (repo, dig, host) := by
      simp only [parseRef, hr, refTagSplit_digest repo dig hRepoAt]
    rw [parseImageDesc_mk, hp]

/-- Witness for C2 at the reference strings of the repository test suite. -/
theorem C2_parse_reference_forms_witness :
    parseImageDesc "public.ecr.aws/foo/bar:version" = ("foo/bar", "version", "public.ecr.aws") ∧
      parseImageDesc "foo/bar@sha256:9a161b6fc2f8ef74bb368f56edcac33a91b494d082da3693a600751a1a68b7d8" =
        ("foo/bar", "sha256:9a161b6fc2f8ef74bb368f56edcac33a91b494d082da3693a600751a1a68b7d8",
          "docker.io") := by
  have h := C2_parse_reference_forms "public.ecr.aws".data "foo/bar".data "version".data
    "sha256:9a161b6fc2f8ef74bb368f56edcac33a91b494d082da3693a600751a1a68b7d8".data
    (by decide) (by decide) (by decide) (by decide) (by decide) (by decide) (by decide)
    (by decide)
  exact ⟨h.2.2.2.2.1, h.2.2.1⟩

/-- C10: for every image reference whose parsed tag component contains a
colon, which is the case for every digest reference the parser accepts and
preserves, the command line entry point stops with the tag cannot be a digest
error before invoking the pipeline, so the reference is never processed by
indexAndPush. -/
theorem C10_digest_tag_rejected (desc newTagFlag : String)
    (h : containsSub [':'] (parseImageDesc desc).2.1.data = true) :
    cliRun desc newTagFlag = .errorExit "Tag cannot be a digest" ∧
      ∀ repo tag newTag registry,
        cliRun desc newTagFlag ≠ .invoke repo tag newTag registry := by
  have h1 : cliRun desc newTagFlag = .errorExit "Tag cannot be a digest" := by
    simp [cliRun, h]
  refine ⟨h1, fun repo tag newTag registry hc => ?_⟩
  rw [h1] at hc
  cases hc

/-- Witness for C10 at a digest addressed reference of the test suite. -/
theorem C10_digest_tag_rejected_witness :
    cliRun "foo/bar@sha256:9a161b6fc2f8ef74bb368f56edcac33a91b494d082da3693a600751a1a68b7d8" "" =
      .errorExit "Tag cannot be a digest" :=
  (C10_digest_tag_rejected
    "foo/bar@sha256:9a161b6fc2f8ef74bb368f56edcac33a91b494d082da3693a600751a1a68b7d8" ""
    (by decide)).1

/-- C9: for every manifest whose top level media type is the OCI image index
media type, GetImageDigests fails with the image already indexed error,
regardless of the rest of the manifest contents. -/
theorem C9_oci_index_already_indexed (fetch : FetchOracle) (digest : String)
    (m : Manifest) (hf : fetch digest = .ok m)
    (hm : m.mediaType = MediaTypeOCIIndexManifest) :
    GetImageDigests fetch digest = .error .imageAlreadyIndexed := by
  simp only [GetImageDigests, hf]
  rw [if_pos hm]

/-- Witness for C9 on a concrete fetch oracle. -/
theorem C9_oci_index_already_indexed_witness :
    GetImageDigests fetchC9 "sha256:idx" = .error .imageAlreadyIndexed :=
  C9_oci_index_already_indexed fetchC9 "sha256:idx" ociIndexSample rfl rfl

/-- C8: for every manifest that is a single platform image manifest, that is
neither an OCI index nor a Docker manifest list at the top level, the config
media type must be one of the recognized image config media types; the empty
string and every other value are validation failures, and on success the
returned digest set is exactly the single input digest. -/
theorem C8_single_platform_validation (fetch : FetchOracle) (digest : String)
    (m : Manifest) (hf : fetch digest = .ok m)
    (h1 : m.mediaType ≠ MediaTypeOCIIndexManifest)
    (h2 : m.mediaType ≠ MediaTypeDockerManifestList) :
    (ImageConfigMediaTypes.contains m.config.mediaType = true →
        GetImageDigests fetch digest = .ok [digest]) ∧
      (m.config.mediaType = "" →
        GetImageDigests fetch digest = .error .emptyConfigMediaType) ∧
      (m.config.mediaType ≠ "" → ImageConfigMediaTypes.contains m.config.mediaType = false →
        GetImageDigests fetch digest = .error (.unexpectedConfigMediaType m.config.mediaType)) := by
  refine ⟨?_, ?_, ?_⟩
  · intro hc
    have hne : m.config.mediaType ≠ "" := by
      intro he
      rw [he] at hc
      exact absurd hc (by decide)
    simp only [GetImageDigests, hf]
    rw [if_neg h1, if_neg h2, if_neg hne, if_pos hc]
  · intro he
    simp only [GetImageDigests, hf]
    rw [if_neg h1, if_neg h2, if_pos he]
  · intro hne hc
    simp only [GetImageDigests, hf]
    rw [if_neg h1, if_neg h2, if_neg hne, if_neg (by rw [hc]; exact Bool.false_ne_true)]

/-- Witness for C8 on a concrete fetch oracle. -/
theorem C8_single_platform_validation_witness :
    GetImageDigests fetchC8 "sha256:img" = .ok ["sha256:img"] :=
  (C8_single_platform_validation fetchC8 "sha256:img" singlePlatformSample rfl
    (by decide) (by decide)).1 (by decide)

/-- Counterexample for C3 as originally stated: the manifest list child
carries the OCI single platform image manifest media type and its manifest
validates, yet GetImageDigests does not append it and instead fails with the
no valid images error, because the iteration only accepts children whose
media type is the Docker manifest media type. -/
theorem C3_counterexample_oci_child_skipped :
    ociChildListSample.mediaType = MediaTypeDockerManifestList ∧
      ociChildListSample.manifests.map Descriptor.mediaType = [MediaTypeOCIManifest] ∧
      ValidateImageManifest fetchC3 "sha256:c1" = .ok () ∧
      GetImageDigests fetchC3 "sha256:top" = .error .noValidImages :=
  ⟨rfl, rfl, rfl, rfl⟩

/-- Witness for the amended C3 on a mixed manifest list: the Docker typed
child is kept in order and the OCI typed child is skipped. -/
theorem C3_manifest_list_docker_children_witness :
    GetImageDigests fetchC3w "sha256:top" = .ok ["sha256:c1"] := by
  have h := C3_manifest_list_docker_children fetchC3w "sha256:top" dockerListSample rfl rfl
  rw [h]
  rfl

/-- C6: every push whose graph copy is rejected with a message containing the
known 405 legacy registry pattern returns the distinguished capability error
value RegistryNotSupportingOciArtifacts; every other push failure, whether a
repository lookup failure or a graph copy failure not matching the pattern,
is returned unchanged. -/
theorem C6_push_capability_translation :
    (∀ e : String, containsSub ociRejectPattern.data e.data = true →
        Push none (some e) = .registryNotSupportingOciArtifacts) ∧
      (∀ e : String, containsSub ociRejectPattern.data e.data = false →
        Push none (some e) = .err e) ∧
      (∀ e : String, ∀ ce : Option String, Push (some e) ce = .err e) := by
  refine ⟨?_, ?_, ?_⟩
  · intro e h
    simp only [Push]
    rw [if_pos h]
  · intro e h
    simp only [Push]
    rw [if_neg (by rw [h]; exact Bool.false_ne_true)]
  · intro e ce
    rfl

/-- Witness for C6: the pattern itself is translated to the capability
error, a plain transport failure is returned unchanged, and a repository
lookup failure is returned unchanged. -/
theorem C6_push_capability_translation_witness :
    Push none (some ociRejectPattern) = .registryNotSupportingOciArtifacts ∧
      Push none (some "connection refused") = .err "connection refused" ∧
      Push (some "bad repository name") none = .err "bad repository name" :=
  ⟨C6_push_capability_translation.1 ociRejectPattern (by decide),
    C6_push_capability_translation.2.1 "connection refused" (by decide),
    C6_push_capability_translation.2.2 "bad repository name" none⟩

/-- The ECR token exchange fails whenever the ambient configuration load
fails, the exchange call fails, the authorization data list is empty, or the
first authorization token is the empty string. -/
theorem authorizeEcr_fails (env : EcrEnv)
    (h : isOkB env.loadConfig = false ∨ isOkB env.getAuthorizationToken = false ∨
      env.getAuthorizationToken = .ok [] ∨
      ∃ rest, env.getAuthorizationToken = .ok ("" :: rest)) :
    isOkB (authorizeEcr env) = false := by
  rcases h with h | h | h | ⟨rest, h⟩
  · obtain ⟨e, he⟩ := (isOkB_eq_false_iff _).mp h
    simp [authorizeEcr, he, isOkB]
  · obtain ⟨e, he⟩ := (isOkB_eq_false_iff _).mp h
    cases hl : env.loadConfig with
    | error el => simp [authorizeEcr, hl, isOkB]
    | ok _ => simp [authorizeEcr, hl, he, isOkB]
  · cases hl : env.loadConfig with
    | error el => simp [authorizeEcr, hl, isOkB]
    | ok _ => simp [authorizeEcr, hl, h, isOkB]
  · cases hl : env.loadConfig with
    | error el => simp [authorizeEcr, hl, isOkB]
    | ok _ => simp [authorizeEcr, hl, h, isOkB]

/-- C7: for every Init call that gets past creating the remote handle, a non
empty explicit auth token is installed verbatim as the basic auth credentials
regardless of the host, taking precedence over the cloud auto
authentication; with an empty token and a host not matching the ECR pattern
no credentials are installed; with an empty token and a host matching the
ECR pattern the token exchange is performed and initialization fails
whenever the ambient configuration load fails, the exchange call fails, the
returned authorization data is empty, or the returned token is empty. -/
theorem C7_init_auth_modes (registryUrl authToken : String) (ecrEnv : EcrEnv) :
    (authToken ≠ "" →
        Init (.ok ()) registryUrl authToken ecrEnv = .ok (.basicAuthToken authToken)) ∧
      (authToken = "" → isEcrRegistry registryUrl = false →
        Init (.ok ()) registryUrl authToken ecrEnv = .ok .noCreds) ∧
      (authToken = "" → isEcrRegistry registryUrl = true →
        (isOkB ecrEnv.loadConfig = false ∨ isOkB ecrEnv.getAuthorizationToken = false ∨
          ecrEnv.getAuthorizationToken = .ok [] ∨
          ∃ rest, ecrEnv.getAuthorizationToken = .ok ("" :: rest)) →
        isOkB (Init (.ok ()) registryUrl authToken ecrEnv) = false) := by
  refine ⟨?_, ?_, ?_⟩
  · intro h0
    simp [Init, h0]
  · intro h0 hecr
    simp [Init, h0, hecr]
  · intro h0 hecr hfail
    obtain ⟨e, he⟩ := (isOkB_eq_false_iff _).mp (authorizeEcr_fails ecrEnv hfail)
    simp [Init, h0, hecr, he, isOkB]

/-- Witness for C7: an explicit token wins on an ECR host, no credentials
are installed for a public registry without a token, and an empty
authorization data list fails initialization on an ECR host. -/
theorem C7_init_auth_modes_witness :
    Init (.ok ()) "123456789012.dkr.ecr.us-east-1.amazonaws.com" "user:pass" ecrEnvEmptyData =
        .ok (.basicAuthToken "user:pass") ∧
      Init (.ok ()) "docker.io" "" ecrEnvEmptyData = .ok .noCreds ∧
      isOkB (Init (.ok ()) "123456789012.dkr.ecr.us-east-1.amazonaws.com" "" ecrEnvEmptyData) =
        false :=
  ⟨(C7_init_auth_modes "123456789012.dkr.ecr.us-east-1.amazonaws.com" "user:pass"
      ecrEnvEmptyData).1 (by decide),
    (C7_init_auth_modes "docker.io" "" ecrEnvEmptyData).2.1 rfl (by decide),
    (C7_init_auth_modes "123456789012.dkr.ecr.us-east-1.amazonaws.com" "" ecrEnvEmptyData).2.2
      rfl (by decide) (Or.inr (Or.inr (Or.inl rfl)))⟩

/-- Counterexample for C1 as originally stated: a transport failure while
fetching the manifest during resolution is swallowed by indexAndPush, which
returns the resolution skip message with a nil error instead of propagating
the failure. -/
theorem C1_counterexample_transport_swallowed :
    GetImageDigests envResolveFail.fetch "latest" =
        .error (.fetchFailed "connection reset by peer") ∧
      (indexAndPush envResolveFail "latest").err = none ∧
      (indexAndPush envResolveFail "latest").msg = ManifestValidationSkipMessage :=
  ⟨rfl, rfl, rfl⟩

/-- C4: the orchestrator never pushes a digest whose build step reports the
empty index signal, and whenever a digest of the resolved set is reached
whose pull succeeds and whose build reports the empty index signal after a
fully successful prefix, the run returns the skip message with a nil
error. -/
theorem C4_no_push_on_empty_index (env : Env) (tag : String) :
    (∀ d : String, isEmptyErr (env.buildIndex d) = true →
        RunAction.push d ∉ (indexAndPush env tag).actions) ∧
      (∀ digests l₁ d l₂, GetImageDigests env.fetch tag = .ok digests →
        digests = l₁ ++ d :: l₂ →
        (∀ e ∈ l₁, digestOkB env e = true) →
        isOkB (env.pull d) = true →
        isEmptyErr (env.buildIndex d) = true →
        isOkB env.initOk = true → isOkB env.tempDir = true → isOkB env.storeOk = true →
        (indexAndPush env tag).msg = SkipPushOnEmptyIndexMessage ∧
          (indexAndPush env tag).err = none) := by
  constructor
  · intro d hd hmem
    cases hi : env.initOk with
    | error e =>
      simp only [indexAndPush, hi] at hmem
      simp at hmem
    | ok iu =>
      cases hg : GetImageDigests env.fetch tag with
      | error re =>
        simp only [indexAndPush, hi, hg] at hmem
        simp at hmem
      | ok digests =>
        cases ht : env.tempDir with
        | error e =>
          simp only [indexAndPush, hi, hg, ht] at hmem
          simp at hmem
        | ok dir =>
          cases hs : env.storeOk with
          | error e =>
            simp only [indexAndPush, hi, hg, ht, hs] at hmem
            simp at hmem
          | ok su =>
            simp only [indexAndPush, hi, hg, ht, hs] at hmem
            rw [List.mem_append] at hmem
            rcases hmem with hmem | hmem
            · have hb := build_ok_of_push_mem env digests d hmem
              rw [isEmptyErr_false_of_ok hb] at hd
              cases hd
            · simp at hmem
  · intro digests l₁ d l₂ hg hsplit hok hpull hempty hinit htd hst
    obtain ⟨iu, hi⟩ := (isOkB_eq_true_iff _).mp hinit
    obtain ⟨dir, ht⟩ := (isOkB_eq_true_iff _).mp htd
    obtain ⟨su, hs⟩ := (isOkB_eq_true_iff _).mp hst
    have hloop := digestLoop_skip env l₁ d l₂ hok hpull hempty
    rw [← hsplit] at hloop
    simp only [indexAndPush, hi, hg, ht, hs]
    exact ⟨hloop.1, hloop.2⟩

/-- Witness for C4 on a run whose single digest builds to the empty index
signal: no push action appears and the run returns the skip message with a
nil error. -/
theorem C4_no_push_on_empty_index_witness :
    RunAction.push "sha256:img" ∉ (indexAndPush envEmptyBuild "sha256:img").actions ∧
      (indexAndPush envEmptyBuild "sha256:img").msg = SkipPushOnEmptyIndexMessage ∧
      (indexAndPush envEmptyBuild "sha256:img").err = none := by
  have h := C4_no_push_on_empty_index envEmptyBuild "sha256:img"
  have h2 := h.2 ["sha256:img"] [] "sha256:img" [] rfl rfl (by simp) rfl rfl rfl rfl rfl
  exact ⟨h.1 "sha256:img" rfl, h2.1, h2.2⟩

/-- C5 amended: the removal of the transient workspace is attempted exactly
once, as the last action after all digest iterations, for every run that
reaches workspace creation, that is when registry initialization, manifest
resolution and temp directory creation all succeed; runs that end at
initialization, at resolution, or at temp directory creation attempt no
removal, because the workspace is created only after resolution. -/
theorem C5_cleanup_exactly_once_after_workspace (env : Env) (tag : String) :
    (isOkB env.initOk = true → isOkB (GetImageDigests env.fetch tag) = true →
        isOkB env.tempDir = true →
        (indexAndPush env tag).actions.count RunAction.cleanup = 1 ∧
          (indexAndPush env tag).actions.getLast? = some RunAction.cleanup) ∧
      (isOkB env.initOk = false ∨ isOkB (GetImageDigests env.fetch tag) = false ∨
          isOkB env.tempDir = false →
        (indexAndPush env tag).actions.count RunAction.cleanup = 0) := by
  constructor
  · intro hinit hres htd
    obtain ⟨iu, hi⟩ := (isOkB_eq_true_iff _).mp hinit
    obtain ⟨digests, hg⟩ := (isOkB_eq_true_iff _).mp hres
    obtain ⟨dir, ht⟩ := (isOkB_eq_true_iff _).mp htd
    cases hs : env.storeOk with
    | error e =>
      simp only [indexAndPush, hi, hg, ht, hs]
      constructor
      · rfl
      · rfl
    | ok su =>
      simp only [indexAndPush, hi, hg, ht, hs]
      constructor
      · rw [List.count_append]
        rw [List.count_eq_zero.mpr (cleanup_not_mem_digestLoop env digests)]
        rfl
      · rw [List.getLast?_concat]
  · intro h
    cases hi : env.initOk with
    | error e =>
      simp only [indexAndPush, hi]
      rfl
    | ok iu =>
      rcases h with h | h | h
      · rw [hi] at h
        cases h
      · obtain ⟨re, hg⟩ := (isOkB_eq_false_iff _).mp h
        simp only [indexAndPush, hi, hg]
        rfl
      · cases hg : GetImageDigests env.fetch tag with
        | error re =>
          simp only [indexAndPush, hi, hg]
          rfl
        | ok digests =>
          obtain ⟨e, ht⟩ := (isOkB_eq_false_iff _).mp h
          simp only [indexAndPush, hi, hg, ht]
          rfl

/-- Counterexample for C5 as originally stated: a run that ends at the
resolution stage attempts no workspace removal at all, because the workspace
is created only after resolution, not during initialization. -/
theorem C5_counterexample_no_cleanup_on_resolve_failure :
    isOkB (GetImageDigests envResolveFail.fetch "latest") = false ∧
      (indexAndPush envResolveFail "latest").actions.count RunAction.cleanup = 0 :=
  ⟨rfl, rfl⟩

/-- Witness for the amended C5: a run reaching workspace creation performs
exactly one cleanup as its last action, and a run failing at resolution
performs none. -/
theorem C5_cleanup_exactly_once_after_workspace_witness :
    (indexAndPush envEmptyBuild "sha256:img").actions.count RunAction.cleanup = 1 ∧
      (indexAndPush envEmptyBuild "sha256:img").actions.getLast? = some RunAction.cleanup ∧
      (indexAndPush envResolveFail "latest").actions.count RunAction.cleanup = 0 := by
  have h1 := (C5_cleanup_exactly_once_after_workspace envEmptyBuild "sha256:img").1 rfl rfl rfl
  have h2 := (C5_cleanup_exactly_once_after_workspace envResolveFail "latest").2
    (Or.inr (Or.inl rfl))
  exact ⟨h1.1, h1.2, h2⟩
